import Mathlib

/-!
Shallow embedding of `my_calculate_fid.py` (repository Kirili4ik/Glow-PyTorch).

Numeric values are modelled as rationals (exact arithmetic standing in for
floating point); the external library routine `scipy.linalg.sqrtm` is an
oracle parameter whose output carries, per entry, a real part, an imaginary
part and an is-finite flag, together with a dtype-level complex flag
(`np.iscomplexobj`). Torch tensors are a flat data list with a shape;
fallible tensor operations (reshape, stack) return `Option`.
-/

set_option autoImplicit false

namespace FidModel

/-- A vector of rationals (a 1-d numpy array). -/
abbrev Vecq := List ℚ

/-- A matrix of rationals as a row list (a 2-d numpy array). -/
abbrev Matq := List (List ℚ)

/-- A numpy array of dimension at most two, as passed to
`calculate_frechet_distance` before the `atleast_1d` / `atleast_2d`
promotions. -/
inductive NDArray where
  | scalar (x : ℚ)
  | vec (v : Vecq)
  | mat (m : Matq)
deriving DecidableEq

/-- `np.atleast_1d`: a scalar becomes a length-1 vector, anything of
dimension at least one is unchanged. -/
def atleast_1d : NDArray → NDArray
  | .scalar x => .vec [x]
  | a => a

/-- `np.atleast_2d`: a scalar becomes a 1x1 matrix, a vector of length n a
1xn matrix, a matrix is unchanged.  The result always has dimension two. -/
def atleast_2d : NDArray → Matq
  | .scalar x => [[x]]
  | .vec v => [v]
  | .mat m => m

/-- The numpy shape of a 2-d row list. -/
def matShape (m : Matq) : List Nat := [m.length, (m.headD []).length]

/-- The numpy shape of an `NDArray`. -/
def ndShape : NDArray → List Nat
  | .scalar _ => []
  | .vec v => [v.length]
  | .mat m => matShape m

/-- Dot product of two equal-length vectors. -/
def dotv (a b : Vecq) : ℚ := (List.zipWith (fun x y => x * y) a b).sum

/-- The columns of a row list (a rectangular matrix read column-wise). -/
def colsOf (m : Matq) : Matq :=
  (List.range ((m.headD []).length)).map (fun j => m.map (fun row => row.getD j 0))

/-- Matrix product of two row lists (meaningful for compatible shapes). -/
def matMul (a b : Matq) : Matq :=
  a.map (fun row => (colsOf b).map (fun col => dotv row col))

/-- `np.trace`: sum of the diagonal entries (out-of-row positions
contribute zero, which leaves the value unchanged on rectangular input). -/
def traceq (m : Matq) : ℚ :=
  ((List.range m.length).map (fun i => (m.getD i []).getD i 0)).sum

/-- Elementwise subtraction of two same-shape numpy arrays
(`mu1 - mu2` after promotion; the mismatched cases are unreachable once
the shape assertion has passed, since equal shapes force equal
constructors). -/
def ndSub : NDArray → NDArray → NDArray
  | .scalar a, .scalar b => .scalar (a - b)
  | .vec a, .vec b => .vec (List.zipWith (fun x y => x - y) a b)
  | .mat a, .mat b => .mat (List.zipWith (List.zipWith (fun x y => x - y)) a b)
  | a, _ => a

/-- `diff.dot(diff)`: for a 1-d array the inner product (a numpy scalar),
for a 2-d array the matrix product. -/
def ndDotSelf : NDArray → NDArray
  | .scalar x => .scalar (x * x)
  | .vec v => .scalar (dotv v v)
  | .mat m => .mat (matMul m m)

/-- Numpy broadcast addition of a scalar to an array (the trailing
`+ np.trace(sigma1) + np.trace(sigma2) - 2 * tr_covmean` of the return
expression). -/
def ndAddScalar : NDArray → ℚ → NDArray
  | .scalar x, c => .scalar (x + c)
  | .vec v, c => .vec (v.map (fun x => x + c))
  | .mat m, c => .mat (m.map (fun r => r.map (fun x => x + c)))

/-- One entry of the matrix returned by `scipy.linalg.sqrtm`: real part,
imaginary part, and whether `np.isfinite` holds of it. -/
structure CE where
  re : ℚ
  im : ℚ
  finite : Bool
deriving DecidableEq

/-- The output of a `scipy.linalg.sqrtm` call: the entry matrix and the
dtype-level flag tested by `np.iscomplexobj`. -/
structure SqrtmOut where
  isComplex : Bool
  entries : List (List CE)
deriving DecidableEq

/-- `np.isfinite(covmean).all()`. -/
def allFinite (m : List (List CE)) : Bool :=
  m.all (fun row => row.all CE.finite)

/-- `np.diagonal`: the diagonal entries of a complex matrix (out-of-row
positions yield a neutral finite real zero, which leaves the imaginary
checks and the real trace unchanged on rectangular input). -/
def cdiag (m : List (List CE)) : List CE :=
  (List.range m.length).map (fun i => (m.getD i []).getD i ⟨0, 0, true⟩)

/-- `np.allclose(np.diagonal(covmean).imag, 0, atol=1e-3)`: with the zero
reference the relative term vanishes, so every diagonal imaginary part must
have absolute value at most 1e-3. -/
def negligibleImag (m : List (List CE)) : Bool :=
  (cdiag m).all (fun e => decide (|e.im| ≤ 1 / 1000))

/-- `np.max(np.abs(covmean.imag))`: the largest absolute imaginary part over
all entries. -/
def maxAbsIm (m : List (List CE)) : ℚ :=
  ((m.flatten).map (fun e => |e.im|)).foldr max 0

/-- `np.trace(covmean)` after `covmean = covmean.real`: the sum of the real
parts of the diagonal (for a real-dtype result the imaginary parts are
zero, so the same expression applies). -/
def realTrace (m : List (List CE)) : ℚ :=
  ((cdiag m).map CE.re).sum

/-- `offset = np.eye(sigma1.shape[0]) * eps; sigma + offset`: add `eps` on
the diagonal (the numpy addition is defined exactly when the matrix is
square, which the callers of this model require). -/
def addDiag (m : Matq) (eps : ℚ) : Matq :=
  (List.range m.length).map (fun i =>
    (List.range ((m.getD i []).length)).map (fun j =>
      if i = j then (m.getD i []).getD j 0 + eps else (m.getD i []).getD j 0))

/-- Lines 46-52 of the source: compute `sqrtm(sigma1.dot(sigma2))` with
`disp=False`; if any entry is non-finite, print a message and recompute
`sqrtm((sigma1 + offset).dot(sigma2 + offset))` once, with no finiteness
check on the second result. -/
def covmeanOf (sqrtm : Matq → SqrtmOut) (s1 s2 : Matq) (eps : ℚ) : SqrtmOut :=
  let first := sqrtm (matMul s1 s2)
  if allFinite first.entries then first
  else sqrtm (matMul (addDiag s1 eps) (addDiag s2 eps))

/-- Result of `calculate_frechet_distance`: an uncaught `AssertionError`
from a shape assertion, the explicit `ValueError` carrying the maximal
imaginary magnitude, or a returned value. -/
inductive FrechetResult where
  | assertError (msg : String)
  | valueError (m : ℚ)
  | ok (value : NDArray)
deriving DecidableEq

/-- Lines 54-64 of the source: the imaginary-component check on `covmean`
followed by the return expression
`diff.dot(diff) + np.trace(sigma1) + np.trace(sigma2) - 2 * tr_covmean`. -/
def imagCheckAndFinish (diff : NDArray) (s1 s2 : Matq) (cov : SqrtmOut) : FrechetResult :=
  if cov.isComplex && !negligibleImag cov.entries then
    .valueError (maxAbsIm cov.entries)
  else
    .ok (ndAddScalar (ndDotSelf diff) (traceq s1 + traceq s2 - 2 * realTrace cov.entries))

/-- `calculate_frechet_distance(mu1, sigma1, mu2, sigma2, eps)` with
`scipy.linalg.sqrtm` abstracted as the oracle `sqrtm`: promote the means
and covariances, assert shape equality, then compute the distance with the
singular-product fallback and the imaginary-component check. -/
def calculate_frechet_distance (sqrtm : Matq → SqrtmOut)
    (mu1 sigma1 mu2 sigma2 : NDArray) (eps : ℚ) : FrechetResult :=
  let m1 := atleast_1d mu1
  let m2 := atleast_1d mu2
  let s1 := atleast_2d sigma1
  let s2 := atleast_2d sigma2
  if ndShape m1 ≠ ndShape m2 then
    .assertError "Training and test mean vectors have different lengths"
  else if matShape s1 ≠ matShape s2 then
    .assertError "Training and test covariances have different dimensions"
  else
    imagCheckAndFinish (ndSub m1 m2) s1 s2 (covmeanOf sqrtm s1 s2 eps)

/-- The default `eps=1e-6` of the python signature, used by the call in
`calculate_fid`. -/
def defaultEps : ℚ := 1 / 1000000

/-- A torch tensor: a shape and the flat data in row-major order. -/
structure Tensor where
  shape : List Nat
  data : List ℚ
deriving DecidableEq

/-- `torch.numel`: the product of the shape. -/
def Tensor.numel (t : Tensor) : Nat := t.shape.prod

/-- `t.reshape(n, -1)` (also `t.view(n, -1)`): succeeds exactly when `n` is
positive and divides the element count, inferring the second dimension. -/
def reshapeRows (n : Nat) (t : Tensor) : Option Tensor :=
  if 0 < n ∧ n ∣ t.numel then some ⟨[n, t.numel / n], t.data⟩ else none

/-- `torch.stack(ts)`: requires a nonempty list of same-shape tensors and
prepends the list length to the shape. -/
def stack (ts : List Tensor) : Option Tensor :=
  match ts with
  | [] => none
  | t :: rest =>
    if rest.all (fun u => u.shape == t.shape) then
      some ⟨(t :: rest).length :: t.shape, ((t :: rest).map Tensor.data).flatten⟩
    else none

/-- Read a 2-d tensor as a numpy row list (`.cpu().numpy()` on a
`(r, c)`-shaped tensor). -/
def toMatq (t : Tensor) : Matq :=
  match t.shape with
  | [r, c] => (List.range r).map (fun i => (t.data.drop (i * c)).take c)
  | _ => []

/-- `X.mean(axis=1)` on a 2-d array: the mean of each row (one entry per
row, i.e. per sample of `true_data` / `ae_data`). -/
def meanAxis1 (x : Matq) : Vecq :=
  x.map (fun row => row.sum / (row.length : ℚ))

/-- `X.mean(axis=0)` on a 2-d array: the mean of each column (one entry per
feature dimension).  This is the statistic the spec describes; the source
computes `meanAxis1` instead. -/
def meanAxis0 (x : Matq) : Vecq :=
  (colsOf x).map (fun col => col.sum / (col.length : ℚ))

/-- `np.cov(X, rowvar=False)`: variables are the columns; with the default
`ddof` the centered column Gram matrix is divided by `N - 1` where `N` is
the number of rows (samples). -/
def npCov (x : Matq) : Matq :=
  let centered := (colsOf x).map (fun col => col.map (fun v => v - col.sum / (col.length : ℚ)))
  centered.map (fun ci => centered.map (fun cj => dotv ci cj / ((x.length : ℚ) - 1)))

/-- The fields of the `config` object that `calculate_activation_statistics`
reads. -/
structure Config where
  batch : Nat
  img_size : Nat
  n_flow : Nat
  n_block : Nat
  temp : ℚ

/-- The external callables of `calculate_activation_statistics`:

* `incep t` models `inception(t)[0]`, the first output of the classifier;
* `reverse` models `model.reverse`, the generative flow run backwards on a
  list of latent tensors;
* `randn i j sh` models the fresh standard-normal draw `torch.randn` made
  for batch index `i` at latent-shape index `j` with shape `sh` (indexing
  by `i` and `j` expresses that each loop iteration draws fresh noise);
* `calc_z_shapes` models the helper of that name.  Modelled from the spec:
  the function lives in `my_utils.py`, which is not among the sources; the
  spec calls it only "a shape-calculation helper", so it is kept as an
  abstract parameter. -/
structure Oracles where
  incep : Tensor → Tensor
  reverse : List Tensor → Tensor
  randn : Nat → Nat → List Nat → List ℚ
  calc_z_shapes : Nat → Nat → Nat → Nat → List (List Nat)

/-- Lines 84-88 of the source: for batch index `i`, the list `z_sample` of
latent tensors, one per shape in
`calc_z_shapes(3, config.img_size, config.n_flow, config.n_block)`, each a
fresh `torch.randn(bs, *z)` draw multiplied by `config.temp`. -/
def zSample (o : Oracles) (cfg : Config) (i : Nat) : List Tensor :=
  let zshapes := o.calc_z_shapes 3 cfg.img_size cfg.n_flow cfg.n_block
  (List.range zshapes.length).map (fun j =>
    { shape := cfg.batch :: zshapes.getD j []
      data := (o.randn i j (cfg.batch :: zshapes.getD j [])).map (fun v => v * cfg.temp) })

/-- Map a fallible function over a list, failing on the first failure (the
effect order of the python loop over the dataloader). -/
def mapOpt {α β : Type} (f : α → Option β) : List α → Option (List β)
  | [] => some []
  | a :: as => (f a).bind (fun b => (mapOpt f as).bind (fun bs => some (b :: bs)))

/-- The two statistics pairs returned by
`calculate_activation_statistics`: `(mu1, s1)` for the reference stream and
`(mu2, s2)` for the generated stream. -/
structure Stats where
  mu1 : Vecq
  s1 : Matq
  mu2 : Vecq
  s2 : Matq
deriving DecidableEq

/-- `calculate_activation_statistics(config, dataloader, model, inception)`
(lines 67-113).  The dataloader is the list of image batches it yields (the
discarded labels are omitted).  Per batch: the reference features
`inception(image)[0].reshape(bs, -1)` and the generated features
`inception(model.reverse(z_sample))[0].reshape(bs, -1)` with fresh latent
noise `z_sample`; then both feature lists are stacked, viewed as
`(bs * len(dataloader), -1)`, and summarised by `mean(axis=1)` and
`np.cov(rowvar=False)`.  A shape failure of any tensor operation is
`none`. -/
def calculate_activation_statistics (o : Oracles) (cfg : Config)
    (dataloader : List Tensor) : Option Stats :=
  (mapOpt (fun img => reshapeRows cfg.batch (o.incep img)) dataloader).bind
    (fun true_vecs =>
  (mapOpt (fun i => reshapeRows cfg.batch (o.incep (o.reverse (zSample o cfg i))))
      (List.range dataloader.length)).bind (fun ae_vecs =>
  (stack true_vecs).bind (fun tstack =>
  (stack ae_vecs).bind (fun astack =>
  (reshapeRows (cfg.batch * dataloader.length) tstack).bind (fun ttd =>
  (reshapeRows (cfg.batch * dataloader.length) astack).bind (fun atd =>
    let true_data := toMatq ttd
    let ae_data := toMatq atd
    some { mu1 := meanAxis1 true_data, s1 := npCov true_data
           mu2 := meanAxis1 ae_data, s2 := npCov ae_data }))))))

/-- `.item()` on a numpy value: the unique element of a size-1 array (the
scalar returned by `calculate_frechet_distance` on vector means). -/
def ndItem : NDArray → Option ℚ
  | .scalar x => some x
  | .vec [x] => some x
  | .mat [[x]] => some x
  | _ => none

/-- Run `fid_value.item()` on the outcome of the distance computation: a
returned value has its unique scalar extracted, an uncaught exception
(assertion or value error) propagates as `none`. -/
def fidOfResult : FrechetResult → Option ℚ
  | .ok v => ndItem v
  | .valueError _ => none
  | .assertError _ => none

/-- `calculate_fid(config, dataloader, model, classifier)` (lines 116-122):
compute the two statistics pairs, apply `calculate_frechet_distance` to
them with the default `eps`, and return `fid_value.item()`.  Uncaught
exceptions of either stage are `none`. -/
def calculate_fid (sqrtm : Matq → SqrtmOut) (o : Oracles) (cfg : Config)
    (dataloader : List Tensor) : Option ℚ :=
  (calculate_activation_statistics o cfg dataloader).bind (fun st =>
    fidOfResult (calculate_frechet_distance sqrtm (.vec st.mu1) (.mat st.s1)
      (.vec st.mu2) (.mat st.s2) defaultEps))

/-- A well-formed square matrix: every row is as long as the row list. -/
def isSquare (m : Matq) : Prop := ∀ row ∈ m, row.length = m.length

instance instDecIsSquare (m : Matq) : Decidable (isSquare m) :=
  List.decidableBAll _ m

/-- A concrete configuration for evaluating the statistics model:
batch size 2, all flow parameters 1, temperature 1. -/
def cfgA : Config := ⟨2, 1, 1, 1, 1⟩

/-- A concrete image batch of two images with two features each. -/
def imgA : Tensor := ⟨[2, 2], [0, 1, 2, 3]⟩

/-- Concrete oracles: the classifier is the identity on tensors, the flow
reverses every latent list to a fixed 2x2 batch, and latent draws are
zero. -/
def oA : Oracles :=
  { incep := fun t => t
    reverse := fun _ => ⟨[2, 2], [0, 1, 2, 3]⟩
    randn := fun _ _ sh => List.replicate sh.prod 0
    calc_z_shapes := fun _ _ _ _ => [[1]] }

/-- A concrete image batch holding a single image with two features. -/
def imgB : Tensor := ⟨[1, 2], [5, 7]⟩

/-- Concrete oracles whose flow produces a single-image batch. -/
def oB : Oracles :=
  { incep := fun t => t
    reverse := fun _ => ⟨[1, 2], [1, 1]⟩
    randn := fun _ _ sh => List.replicate sh.prod 0
    calc_z_shapes := fun _ _ _ _ => [[1]] }

/-- A concrete sqrtm oracle returning a finite real 1x1 matrix. -/
def sqA : Matq → SqrtmOut := fun _ => ⟨false, [[⟨1, 0, true⟩]]⟩

/-- A concrete sqrtm oracle returning a complex 1x1 matrix whose diagonal
imaginary part exceeds the 1e-3 tolerance. -/
def sqC : Matq → SqrtmOut := fun _ => ⟨true, [[⟨1, 1, true⟩]]⟩

/-- A concrete sqrtm oracle that is non-finite on the product `[[1]]` and
finite real elsewhere (in particular on the regularized retry product). -/
def sqD : Matq → SqrtmOut := fun m =>
  if m = [[1]] then ⟨false, [[⟨0, 0, false⟩]]⟩ else ⟨false, [[⟨3, 0, true⟩]]⟩

/-- C1: for mean vectors of equal shape and covariance matrices of equal
shape, when the matrix square root of `sigma1.dot(sigma2)` is entirely
finite and, after discarding a negligible imaginary part, real,
`calculate_frechet_distance` returns the textbook Fréchet distance
`(mu1-mu2).dot(mu1-mu2) + trace(sigma1) + trace(sigma2)
- 2 * trace(sqrtm(sigma1.dot(sigma2)))`. -/
theorem claim_C1_textbook_formula (sqrtm : Matq → SqrtmOut) (mu1 mu2 : Vecq)
    (s1 s2 : Matq) (eps : ℚ)
    (hlen : mu1.length = mu2.length)
    (hshape : matShape s1 = matShape s2)
    (_hsq1 : isSquare s1) (_hsq2 : isSquare s2)
    (hfin : allFinite (sqrtm (matMul s1 s2)).entries = true)
    (himag : (sqrtm (matMul s1 s2)).isComplex = true →
      negligibleImag (sqrtm (matMul s1 s2)).entries = true) :
    calculate_frechet_distance sqrtm (.vec mu1) (.mat s1) (.vec mu2) (.mat s2) eps =
      .ok (.scalar (dotv (List.zipWith (fun a b => a - b) mu1 mu2)
          (List.zipWith (fun a b => a - b) mu1 mu2)
        + traceq s1 + traceq s2
        - 2 * realTrace (sqrtm (matMul s1 s2)).entries)) := by
  have hcov : covmeanOf sqrtm s1 s2 eps = sqrtm (matMul s1 s2) := by
    unfold covmeanOf
    simp [hfin]
  simp only [calculate_frechet_distance, atleast_1d, atleast_2d, ndShape]
  rw [if_neg (by simp [hlen]), if_neg (by simp [hshape]), hcov]
  unfold imagCheckAndFinish
  have hc : ((sqrtm (matMul s1 s2)).isComplex
      && !negligibleImag (sqrtm (matMul s1 s2)).entries) = false := by
    cases hx : (sqrtm (matMul s1 s2)).isComplex with
    | false => simp
    | true => simp [himag hx]
  rw [hc]
  simp only [Bool.false_eq_true, if_false, ndSub, ndDotSelf, ndAddScalar]
  have harith : dotv (List.zipWith (fun a b => a - b) mu1 mu2)
        (List.zipWith (fun a b => a - b) mu1 mu2)
      + (traceq s1 + traceq s2 - 2 * realTrace (sqrtm (matMul s1 s2)).entries)
    = dotv (List.zipWith (fun a b => a - b) mu1 mu2)
        (List.zipWith (fun a b => a - b) mu1 mu2)
      + traceq s1 + traceq s2 - 2 * realTrace (sqrtm (matMul s1 s2)).entries := by
    ring
  rw [harith]

/-- C1 witness: the formula theorem at a concrete finite real input. -/
theorem claim_C1_textbook_formula_witness :
    calculate_frechet_distance sqA (.vec [0]) (.mat [[1]]) (.vec [0]) (.mat [[1]]) 1 =
      .ok (.scalar (dotv (List.zipWith (fun a b => a - b) [0] [0])
          (List.zipWith (fun a b => a - b) [0] [0])
        + traceq [[1]] + traceq [[1]]
        - 2 * realTrace (sqA (matMul [[1]] [[1]])).entries)) :=
  claim_C1_textbook_formula sqA [0] [0] [[1]] [[1]] 1 rfl rfl (by decide)
    (by decide) (by decide) (by decide)

/-- C5: the shape assertions run before any computation: unequal promoted
mean shapes fail with the first assertion message, equal mean shapes but
unequal promoted covariance shapes fail with the second, and when both
pairs agree no assertion error can be produced. -/
theorem claim_C5_shape_assertions (sqrtm : Matq → SqrtmOut)
    (mu1 sigma1 mu2 sigma2 : NDArray) (eps : ℚ) :
    (ndShape (atleast_1d mu1) ≠ ndShape (atleast_1d mu2) →
      calculate_frechet_distance sqrtm mu1 sigma1 mu2 sigma2 eps =
        .assertError "Training and test mean vectors have different lengths")
    ∧ (ndShape (atleast_1d mu1) = ndShape (atleast_1d mu2) →
      matShape (atleast_2d sigma1) ≠ matShape (atleast_2d sigma2) →
      calculate_frechet_distance sqrtm mu1 sigma1 mu2 sigma2 eps =
        .assertError "Training and test covariances have different dimensions")
    ∧ (ndShape (atleast_1d mu1) = ndShape (atleast_1d mu2) →
      matShape (atleast_2d sigma1) = matShape (atleast_2d sigma2) →
      ∀ msg, calculate_frechet_distance sqrtm mu1 sigma1 mu2 sigma2 eps ≠
        .assertError msg) := by
  refine ⟨?_, ?_, ?_⟩
  · intro h
    simp only [calculate_frechet_distance]
    rw [if_pos h]
  · intro h1 h2
    simp only [calculate_frechet_distance]
    rw [if_neg (not_not_intro h1), if_pos h2]
  · intro h1 h2 msg
    simp only [calculate_frechet_distance]
    rw [if_neg (not_not_intro h1), if_neg (not_not_intro h2)]
    unfold imagCheckAndFinish
    split <;> simp

/-- C5 witness: the first assertion fires on means of different lengths. -/
theorem claim_C5_shape_assertions_witness :
    calculate_frechet_distance sqA (.vec [0, 0]) (.mat [[1]]) (.vec [0]) (.mat [[1]]) 1 =
      .assertError "Training and test mean vectors have different lengths" :=
  (claim_C5_shape_assertions sqA (.vec [0, 0]) (.mat [[1]]) (.vec [0]) (.mat [[1]]) 1).1
    (by decide)

/-- C8: `calculate_frechet_distance` is deterministic: with the same
`sqrtm` routine, equal inputs give equal results. -/
theorem claim_C8_deterministic (sqrtm : Matq → SqrtmOut)
    (mu1 sigma1 mu2 sigma2 : NDArray) (eps : ℚ)
    (mu1b sigma1b mu2b sigma2b : NDArray) (epsb : ℚ)
    (h1 : mu1 = mu1b) (h2 : sigma1 = sigma1b) (h3 : mu2 = mu2b)
    (h4 : sigma2 = sigma2b) (h5 : eps = epsb) :
    calculate_frechet_distance sqrtm mu1 sigma1 mu2 sigma2 eps =
      calculate_frechet_distance sqrtm mu1b sigma1b mu2b sigma2b epsb := by
  subst h1 h2 h3 h4 h5
  rfl

/-- C8 witness: determinism at a concrete input. -/
theorem claim_C8_deterministic_witness :
    calculate_frechet_distance sqA (.vec [1]) (.mat [[1]]) (.vec [0]) (.mat [[1]]) 1 =
      calculate_frechet_distance sqA (.vec [1]) (.mat [[1]]) (.vec [0]) (.mat [[1]]) 1 :=
  claim_C8_deterministic sqA (.vec [1]) (.mat [[1]]) (.vec [0]) (.mat [[1]]) 1
    (.vec [1]) (.mat [[1]]) (.vec [0]) (.mat [[1]]) 1 rfl rfl rfl rfl rfl

/-- C9: scalar means are promoted to length-1 vectors and scalar
covariances to 1x1 matrices before the shape checks, so scalar inputs are
accepted and treated exactly like their promoted forms. -/
theorem claim_C9_scalar_promotion (sqrtm : Matq → SqrtmOut) (x u y v eps : ℚ) :
    atleast_1d (.scalar x) = .vec [x]
    ∧ atleast_2d (.scalar u) = [[u]]
    ∧ calculate_frechet_distance sqrtm (.scalar x) (.scalar u) (.scalar y) (.scalar v) eps
        = calculate_frechet_distance sqrtm (.vec [x]) (.mat [[u]]) (.vec [y]) (.mat [[v]]) eps
    ∧ ∀ msg, calculate_frechet_distance sqrtm (.scalar x) (.scalar u) (.scalar y) (.scalar v) eps
        ≠ .assertError msg := by
  refine ⟨rfl, rfl, rfl, ?_⟩
  intro msg
  simp only [calculate_frechet_distance]
  rw [if_neg (by simp [atleast_1d, ndShape]), if_neg (by simp [atleast_2d, matShape])]
  unfold imagCheckAndFinish
  split <;> simp

/-- C9 witness: concrete scalar inputs agree with their promoted forms. -/
theorem claim_C9_scalar_promotion_witness :
    calculate_frechet_distance sqA (.scalar 5) (.scalar 2) (.scalar 3) (.scalar 4) 1
      = calculate_frechet_distance sqA (.vec [5]) (.mat [[2]]) (.vec [3]) (.mat [[4]]) 1 :=
  (claim_C9_scalar_promotion sqA 5 2 3 4 1).2.2.1

/-- C3: when the computed square root is complex with a diagonal imaginary
part not within 1e-3 of zero, the function raises `ValueError` carrying the
maximal absolute imaginary entry; when the imaginary part is negligible,
the result is truncated to its real part (the trace sums real parts only)
and no error is raised. -/
theorem claim_C3_imaginary_check (sqrtm : Matq → SqrtmOut)
    (mu1 sigma1 mu2 sigma2 : NDArray) (eps : ℚ)
    (h1 : ndShape (atleast_1d mu1) = ndShape (atleast_1d mu2))
    (h2 : matShape (atleast_2d sigma1) = matShape (atleast_2d sigma2))
    (_hsq1 : isSquare (atleast_2d sigma1)) (_hsq2 : isSquare (atleast_2d sigma2))
    (hc : (covmeanOf sqrtm (atleast_2d sigma1) (atleast_2d sigma2) eps).isComplex = true) :
    (negligibleImag (covmeanOf sqrtm (atleast_2d sigma1) (atleast_2d sigma2) eps).entries
        = false →
      calculate_frechet_distance sqrtm mu1 sigma1 mu2 sigma2 eps =
        .valueError (maxAbsIm
          (covmeanOf sqrtm (atleast_2d sigma1) (atleast_2d sigma2) eps).entries))
    ∧ (negligibleImag (covmeanOf sqrtm (atleast_2d sigma1) (atleast_2d sigma2) eps).entries
        = true →
      calculate_frechet_distance sqrtm mu1 sigma1 mu2 sigma2 eps =
        .ok (ndAddScalar (ndDotSelf (ndSub (atleast_1d mu1) (atleast_1d mu2)))
          (traceq (atleast_2d sigma1) + traceq (atleast_2d sigma2)
            - 2 * realTrace
              (covmeanOf sqrtm (atleast_2d sigma1) (atleast_2d sigma2) eps).entries))) := by
  constructor
  · intro hneg
    simp only [calculate_frechet_distance]
    rw [if_neg (not_not_intro h1), if_neg (not_not_intro h2)]
    unfold imagCheckAndFinish
    rw [hc, hneg]
    simp
  · intro hneg
    simp only [calculate_frechet_distance]
    rw [if_neg (not_not_intro h1), if_neg (not_not_intro h2)]
    unfold imagCheckAndFinish
    rw [hc, hneg]
    simp

/-- C3 witness: a complex square root with imaginary part 1 on the
diagonal produces the `ValueError` branch at a concrete input. -/
theorem claim_C3_imaginary_check_witness :
    negligibleImag (covmeanOf sqC (atleast_2d (.mat [[1]])) (atleast_2d (.mat [[1]])) 1).entries
        = false
    ∧ calculate_frechet_distance sqC (.vec [0]) (.mat [[1]]) (.vec [0]) (.mat [[1]]) 1 =
        .valueError (maxAbsIm
          (covmeanOf sqC (atleast_2d (.mat [[1]])) (atleast_2d (.mat [[1]])) 1).entries) :=
  ⟨by norm_num [covmeanOf, sqC, allFinite, negligibleImag, cdiag, List.range_succ,
      List.getD_cons_zero],
    (claim_C3_imaginary_check sqC (.vec [0]) (.mat [[1]]) (.vec [0]) (.mat [[1]]) 1
      rfl rfl (by decide) (by decide)
      (by norm_num [covmeanOf, sqC, allFinite])).1
      (by norm_num [covmeanOf, sqC, allFinite, negligibleImag, cdiag, List.range_succ,
        List.getD_cons_zero])⟩

/-- C4: when the first square root of `sigma1.dot(sigma2)` contains a
non-finite entry, both covariances are regularized by adding `eps` on the
diagonal and the square root is recomputed exactly once on the product of
the regularized matrices; the rest of the function consumes that second
result unconditionally, with no further retry. -/
theorem claim_C4_singular_retry (sqrtm : Matq → SqrtmOut)
    (mu1 sigma1 mu2 sigma2 : NDArray) (eps : ℚ)
    (h1 : ndShape (atleast_1d mu1) = ndShape (atleast_1d mu2))
    (h2 : matShape (atleast_2d sigma1) = matShape (atleast_2d sigma2))
    (_hsq1 : isSquare (atleast_2d sigma1)) (_hsq2 : isSquare (atleast_2d sigma2))
    (hnf : allFinite (sqrtm (matMul (atleast_2d sigma1) (atleast_2d sigma2))).entries
      = false) :
    covmeanOf sqrtm (atleast_2d sigma1) (atleast_2d sigma2) eps
        = sqrtm (matMul (addDiag (atleast_2d sigma1) eps) (addDiag (atleast_2d sigma2) eps))
    ∧ calculate_frechet_distance sqrtm mu1 sigma1 mu2 sigma2 eps =
        imagCheckAndFinish (ndSub (atleast_1d mu1) (atleast_1d mu2))
          (atleast_2d sigma1) (atleast_2d sigma2)
          (sqrtm (matMul (addDiag (atleast_2d sigma1) eps)
            (addDiag (atleast_2d sigma2) eps))) := by
  have hcov : covmeanOf sqrtm (atleast_2d sigma1) (atleast_2d sigma2) eps
      = sqrtm (matMul (addDiag (atleast_2d sigma1) eps) (addDiag (atleast_2d sigma2) eps)) := by
    unfold covmeanOf
    simp [hnf]
  refine ⟨hcov, ?_⟩
  simp only [calculate_frechet_distance]
  rw [if_neg (not_not_intro h1), if_neg (not_not_intro h2), hcov]

/-- Auxiliary: if `mapOpt f` succeeds on a list, `f` succeeds on each
element. -/
theorem mapOpt_forall_some {α β : Type} (f : α → Option β) :
    ∀ (xs : List α) (ys : List β), mapOpt f xs = some ys →
      ∀ x ∈ xs, ∃ y, f x = some y := by
  intro xs
  induction xs with
  | nil => intro ys h x hx; cases hx
  | cons a as ih =>
    intro ys h x hx
    unfold mapOpt at h
    cases hf : f a with
    | none => rw [hf] at h; simp at h
    | some b =>
      rw [hf] at h
      cases hm : mapOpt f as with
      | none => rw [hm] at h; simp at h
      | some bs =>
        rcases List.mem_cons.mp hx with rfl | hx2
        · exact ⟨b, hf⟩
        · exact ih bs hm x hx2

/-- Auxiliary: a reshape to `n` rows succeeds exactly when `n` is positive
and divides the element count. -/
theorem reshapeRows_isSome (n : Nat) (t : Tensor) :
    (reshapeRows n t).isSome ↔ 0 < n ∧ n ∣ t.numel := by
  unfold reshapeRows
  split <;> simp_all

/-- Auxiliary: a successful reshape to `n` rows has shape
`[n, numel / n]`. -/
theorem reshapeRows_shape (n : Nat) (t u : Tensor)
    (h : reshapeRows n t = some u) : u.shape = [n, t.numel / n] := by
  unfold reshapeRows at h
  split at h
  · cases Option.some.inj h; rfl
  · cases h

/-- Auxiliary: reading a `(r, c)`-shaped tensor as a row list yields `r`
rows. -/
theorem toMatq_length (t : Tensor) (r c : Nat) (h : t.shape = [r, c]) :
    (toMatq t).length = r := by
  unfold toMatq
  rw [h]
  simp

/-- Auxiliary: the row-mean vector has one entry per row. -/
theorem meanAxis1_length (x : Matq) : (meanAxis1 x).length = x.length := by
  unfold meanAxis1
  simp

set_option maxHeartbeats 2000000 in
/-- Auxiliary: the concrete statistics run on `oA` / `cfgA` / `[imgA]`,
whose stacked feature array is `[[0, 1], [2, 3]]` for both streams. -/
theorem statsA_eval :
    calculate_activation_statistics oA cfgA [imgA] =
      some ⟨[1/2, 5/2], [[2, 2], [2, 2]], [1/2, 5/2], [[2, 2], [2, 2]]⟩ := by
  norm_num [calculate_activation_statistics, mapOpt, reshapeRows, stack, toMatq,
    meanAxis1, npCov, colsOf, dotv, zSample, oA, cfgA, imgA, Tensor.numel,
    List.range_succ, List.getD_cons_zero]

set_option maxHeartbeats 2000000 in
/-- Auxiliary: the concrete statistics run on `oB` / `cfgA` / `[imgB]`,
where the single yielded batch holds one image while `cfgA.batch = 2`. -/
theorem statsB_eval :
    calculate_activation_statistics oB cfgA [imgB] =
      some ⟨[5, 7], [[2]], [1, 1], [[0]]⟩ := by
  norm_num [calculate_activation_statistics, mapOpt, reshapeRows, stack, toMatq,
    meanAxis1, npCov, colsOf, dotv, zSample, oB, cfgA, imgB, Tensor.numel,
    List.range_succ, List.getD_cons_zero]

/-- C4 witness: a concrete oracle that is non-finite on the raw product and
finite on the regularized product exercises the single retry. -/
theorem claim_C4_singular_retry_witness :
    covmeanOf sqD (atleast_2d (.mat [[1]])) (atleast_2d (.mat [[1]])) 1
        = sqD (matMul (addDiag (atleast_2d (.mat [[1]])) 1) (addDiag (atleast_2d (.mat [[1]])) 1))
    ∧ calculate_frechet_distance sqD (.vec [0]) (.mat [[1]]) (.vec [0]) (.mat [[1]]) 1 =
        imagCheckAndFinish (ndSub (atleast_1d (.vec [0])) (atleast_1d (.vec [0])))
          (atleast_2d (.mat [[1]])) (atleast_2d (.mat [[1]]))
          (sqD (matMul (addDiag (atleast_2d (.mat [[1]])) 1)
            (addDiag (atleast_2d (.mat [[1]])) 1))) :=
  claim_C4_singular_retry sqD (.vec [0]) (.mat [[1]]) (.vec [0]) (.mat [[1]]) 1
    rfl rfl (by decide) (by decide)
    (by norm_num [sqD, matMul, colsOf, dotv, atleast_2d, allFinite, List.range_succ,
      List.getD_cons_zero])

/-- C6: `calculate_fid` is exactly the composition of the two stages: the
statistics pairs from `calculate_activation_statistics` are fed to
`calculate_frechet_distance` with the default `eps`, and the scalar result
is extracted with `.item()`. -/
theorem claim_C6_composition (sqrtm : Matq → SqrtmOut) (o : Oracles)
    (cfg : Config) (dl : List Tensor) :
    calculate_fid sqrtm o cfg dl =
      (calculate_activation_statistics o cfg dl).bind (fun st =>
        fidOfResult (calculate_frechet_distance sqrtm (.vec st.mu1) (.mat st.s1)
          (.vec st.mu2) (.mat st.s2) defaultEps))
    ∧ (∀ q : ℚ, fidOfResult (.ok (.scalar q)) = some q)
    ∧ (∀ q : ℚ, fidOfResult (.valueError q) = none) :=
  ⟨rfl, fun _ => rfl, fun _ => rfl⟩

/-- C7: whenever `calculate_activation_statistics` returns, every batch
index was processed by drawing fresh latent noise of the shapes given by
`calc_z_shapes(3, img_size, n_flow, n_block)` scaled by `temp`, running it
through the flow's reverse operation, and reshaping the classifier features
of the resulting images. -/
theorem claim_C7_generated_pipeline (o : Oracles) (cfg : Config)
    (dl : List Tensor) (st : Stats)
    (h : calculate_activation_statistics o cfg dl = some st)
    (i : Nat) (hi : i < dl.length) :
    (∃ v, reshapeRows cfg.batch (o.incep (o.reverse (zSample o cfg i))) = some v)
    ∧ zSample o cfg i =
        (List.range (o.calc_z_shapes 3 cfg.img_size cfg.n_flow cfg.n_block).length).map
          (fun j =>
            { shape := cfg.batch ::
                (o.calc_z_shapes 3 cfg.img_size cfg.n_flow cfg.n_block).getD j []
              data := (o.randn i j (cfg.batch ::
                  (o.calc_z_shapes 3 cfg.img_size cfg.n_flow cfg.n_block).getD j [])).map
                (fun v => v * cfg.temp) }) := by
  constructor
  · unfold calculate_activation_statistics at h
    cases h1 : mapOpt (fun img => reshapeRows cfg.batch (o.incep img)) dl with
    | none => rw [h1] at h; simp at h
    | some tv =>
      rw [h1] at h
      cases h2 : mapOpt
          (fun i => reshapeRows cfg.batch (o.incep (o.reverse (zSample o cfg i))))
          (List.range dl.length) with
      | none => rw [h2] at h; simp at h
      | some av =>
        exact mapOpt_forall_some _ _ av h2 i (List.mem_range.mpr hi)
  · rfl

/-- C7 witness: the pipeline property at the concrete successful run of
`statsA_eval`, batch index 0. -/
theorem claim_C7_generated_pipeline_witness :
    (∃ v, reshapeRows cfgA.batch (oA.incep (oA.reverse (zSample oA cfgA 0))) = some v)
    ∧ zSample oA cfgA 0 =
        (List.range (oA.calc_z_shapes 3 cfgA.img_size cfgA.n_flow cfgA.n_block).length).map
          (fun j =>
            { shape := cfgA.batch ::
                (oA.calc_z_shapes 3 cfgA.img_size cfgA.n_flow cfgA.n_block).getD j []
              data := (oA.randn 0 j (cfgA.batch ::
                  (oA.calc_z_shapes 3 cfgA.img_size cfgA.n_flow cfgA.n_block).getD j [])).map
                (fun v => v * cfgA.temp) }) :=
  claim_C7_generated_pipeline oA cfgA [imgA]
    ⟨[1/2, 5/2], [[2, 2], [2, 2]], [1/2, 5/2], [[2, 2], [2, 2]]⟩ statsA_eval 0
    (by decide)

/-- C2: the statistics stage summarises each stacked feature array with
`mean(axis=1)`, the per-sample mean over feature dimensions, not the
per-feature mean over samples that the spec (and the Fréchet formula)
require: on a concrete run whose stacked array is `[[0, 1], [2, 3]]`
(two samples, two features) the code produces `[1/2, 5/2]` (one entry per
sample) while the mean across samples is `[1, 2]`.  The covariance part
does use the feature-by-feature `np.cov(rowvar=False)`. -/
theorem claim_C2_mean_axis_bug :
    calculate_activation_statistics oA cfgA [imgA] =
      some ⟨meanAxis1 [[0, 1], [2, 3]], npCov [[0, 1], [2, 3]],
            meanAxis1 [[0, 1], [2, 3]], npCov [[0, 1], [2, 3]]⟩
    ∧ meanAxis1 [[0, 1], [2, 3]] = [1/2, 5/2]
    ∧ meanAxis0 [[0, 1], [2, 3]] = [1, 2]
    ∧ meanAxis1 [[0, 1], [2, 3]] ≠ meanAxis0 [[0, 1], [2, 3]] := by
  refine ⟨?_, ?_, ?_, ?_⟩
  · rw [statsA_eval]
    norm_num [meanAxis1, npCov, colsOf, dotv, List.range_succ, List.getD_cons_zero]
  · norm_num [meanAxis1]
  · norm_num [meanAxis0, colsOf, List.range_succ, List.getD_cons_zero]
  · norm_num [meanAxis1, meanAxis0, colsOf, List.range_succ, List.getD_cons_zero]

/-- C10 counterexample: a dataloader batch holding a single image while
`config.batch = 2` does not make the reshape fail: the run succeeds,
because 2 divides the batch's two feature entries. -/
theorem claim_C10_counterexample :
    imgB.shape = [1, 2]
    ∧ cfgA.batch = 2
    ∧ calculate_activation_statistics oB cfgA [imgB] =
        some ⟨[5, 7], [[2]], [1, 1], [[0]]⟩ :=
  ⟨rfl, rfl, statsB_eval⟩

/-- C10 amended: the per-batch reshape to `config.batch` rows succeeds
exactly when `config.batch` is positive and divides the feature tensor's
element count (so a batch of a different image count can still pass), a
successful reshape has `config.batch` rows, and on any successful run both
mean vectors have exactly `config.batch * len(dataloader)` entries. -/
theorem claim_C10_reshape_divisibility (n : Nat) (t : Tensor) (o : Oracles)
    (cfg : Config) (dl : List Tensor) (st : Stats)
    (h : calculate_activation_statistics o cfg dl = some st) :
    ((reshapeRows n t).isSome ↔ 0 < n ∧ n ∣ t.numel)
    ∧ (∀ u, reshapeRows n t = some u → u.shape = [n, t.numel / n])
    ∧ st.mu1.length = cfg.batch * dl.length
    ∧ st.mu2.length = cfg.batch * dl.length := by
  refine ⟨reshapeRows_isSome n t, fun u hu => reshapeRows_shape n t u hu, ?_⟩
  unfold calculate_activation_statistics at h
  cases h1 : mapOpt (fun img => reshapeRows cfg.batch (o.incep img)) dl with
  | none => rw [h1] at h; simp at h
  | some tv =>
    rw [h1] at h
    simp only [Option.some_bind] at h
    cases h2 : mapOpt
        (fun i => reshapeRows cfg.batch (o.incep (o.reverse (zSample o cfg i))))
        (List.range dl.length) with
    | none => rw [h2] at h; simp at h
    | some av =>
      rw [h2] at h
      simp only [Option.some_bind] at h
      cases h3 : stack tv with
      | none => rw [h3] at h; simp at h
      | some tstack =>
        rw [h3] at h
        simp only [Option.some_bind] at h
        cases h4 : stack av with
        | none => rw [h4] at h; simp at h
        | some astack =>
          rw [h4] at h
          simp only [Option.some_bind] at h
          cases h5 : reshapeRows (cfg.batch * dl.length) tstack with
          | none => rw [h5] at h; simp at h
          | some ttd =>
            rw [h5] at h
            simp only [Option.some_bind] at h
            cases h6 : reshapeRows (cfg.batch * dl.length) astack with
            | none => rw [h6] at h; simp at h
            | some atd =>
              rw [h6] at h
              simp only [Option.some_bind] at h
              cases Option.some.inj h
              refine ⟨?_, ?_⟩
              · show (meanAxis1 (toMatq ttd)).length = _
                rw [meanAxis1_length,
                  toMatq_length ttd (cfg.batch * dl.length)
                    (tstack.numel / (cfg.batch * dl.length)) (reshapeRows_shape _ _ _ h5)]
              · show (meanAxis1 (toMatq atd)).length = _
                rw [meanAxis1_length,
                  toMatq_length atd (cfg.batch * dl.length)
                    (astack.numel / (cfg.batch * dl.length)) (reshapeRows_shape _ _ _ h6)]

/-- C10 amended witness: the divisibility equivalence and row counts at the
concrete single-image run of `statsB_eval`. -/
theorem claim_C10_reshape_divisibility_witness :
    ((reshapeRows 2 imgB).isSome ↔ 0 < 2 ∧ 2 ∣ imgB.numel)
    ∧ (∀ u, reshapeRows 2 imgB = some u → u.shape = [2, imgB.numel / 2])
    ∧ (Stats.mu1 ⟨[5, 7], [[2]], [1, 1], [[0]]⟩).length = cfgA.batch * [imgB].length
    ∧ (Stats.mu2 ⟨[5, 7], [[2]], [1, 1], [[0]]⟩).length = cfgA.batch * [imgB].length :=
  claim_C10_reshape_divisibility 2 imgB oB cfgA [imgB]
    ⟨[5, 7], [[2]], [1, 1], [[0]]⟩ statsB_eval

end FidModel
